import Mathlib

/-!
Verification development for the Galene server core (Tofee/galene).

The development shallowly embeds three parts of the repository:

* the stateful-token subsystem (package `token`): the repository ships only
  the test file `stateful_test.go`; the implementation (`Stateful.Check`,
  `state.Update`, `state.Expire`, `state.rewrite`, `state.Get`) is modelled
  from the specification (spec §3 and §4.4) and pinned by the expectations
  of the shipped tests wherever those decide the behaviour;
* the WHIP client (`rtpconn/whip.go`): connection setup, duplicate
  rejection and the close path, embedded from the source;
* the `galenectl` command-line tool: `makePassword`, the `hash-password`
  flag defaults, and `readConfig`, embedded from the source.

Machine integers do not overflow in any of the embedded code paths;
timestamps are modelled as integers (`Int`), strings as Lean `String`.
-/

namespace Galene

/-! ## Stateful tokens (package `token`) -/

/-- Stateful token record, from spec §3 ("Stateful token") and the fields
used by `stateful_test.go`.  Timestamps are integers; optional fields are
`Option`. -/
structure Stateful where
  token : String
  group : String
  includeSubgroups : Bool := false
  username : Option String := none
  permissions : List String := []
  expires : Option Int := none
  notBefore : Option Int := none
  issuedBy : Option String := none
  issuedAt : Option Int := none
deriving Repr, DecidableEq

/-- String prefix test, on the underlying character lists (the embedding of
Go's `strings.HasPrefix`). -/
def strHasPrefix (p s : String) : Bool :=
  p.data.isPrefixOf s.data

/-- Modelled from the spec: the group-matching part of `Stateful.Check`
(token/stateful.go is absent from the sources).  Spec §4.3: "A token with
`includeSubgroups` matches `group`, `group/…`"; the requested group matches
exactly or, with `includeSubgroups`, as a strict subgroup
(`t.group ++ "/"` is a prefix of the request). -/
def groupMatches (t : Stateful) (grp : String) : Bool :=
  grp == t.group || (t.includeSubgroups && strHasPrefix (t.group ++ "/") grp)

/-- Modelled from the spec: the validity window of `Stateful.Check`
(token/stateful.go is absent from the sources).  Spec §8 (P6):
"notBefore ≤ now < expires", each bound checked only when set. -/
def timeValid (t : Stateful) (now : Int) : Bool :=
  (match t.notBefore with
   | some nb => decide (nb ≤ now)
   | none => true) &&
  (match t.expires with
   | some e => decide (now < e)
   | none => true)

/-- Result of `Stateful.Check`, the embedding of Go's
`(string, []string, error)` return triple. -/
inductive CheckResult where
  | ok (username : String) (permissions : List String)
  | err (msg : String)
deriving Repr, DecidableEq

/-- Whether a `CheckResult` is a failure. -/
def CheckResult.isErr : CheckResult → Bool
  | .ok _ _ => false
  | .err _ => true

/-- Modelled from the spec: `Stateful.Check(host, group, username)`
(token/stateful.go is absent from the sources).  Spec §4.3 and §8 (P6):
the check succeeds iff the group matches and the current time is inside the
validity window; every client-supplied username is compatible.  On success
the permissions are the token's permission list, and the returned username
is the token's bound username when present; when the token binds no
username the shipped test `TestStatefulCheck` (success case with `token2`)
expects the empty string, so the model returns `""` there (the `host` and
`username` arguments do not influence the result). -/
def Stateful.check (t : Stateful) (now : Int) (host grp : String)
    (username : Option String) : CheckResult :=
  if !(groupMatches t grp) then
    .err "token for bad group"
  else if !(timeValid t now) then
    .err "token not valid at this time"
  else
    .ok (t.username.getD "") t.permissions

/-- The claim's reading of the returned username: the token's bound
username when present, else the caller-supplied one.  This definition
follows the spec's words and is compared against the behaviour pinned by
the shipped test. -/
def claimReturnedUsername (t : Stateful) (username : Option String) : String :=
  match t.username with
  | some u => u
  | none => username.getD ""

/-! Test fixtures of `TestStatefulCheck` (stateful_test.go lines 40–82),
with `now = 0`, `past = -60`, `nearFuture = 30`, `future = 60`. -/

def testNow : Int := 0

def token1 : Stateful :=
  { token := "token", group := "group", username := some "user",
    permissions := ["present", "message"], expires := some 60 }

def token2 : Stateful :=
  { token := "token", group := "group",
    permissions := ["present", "message"], expires := some 60 }

def token3 : Stateful :=
  { token := "token", group := "group", username := some "user",
    permissions := ["present", "message"], expires := some (-60) }

def token4 : Stateful :=
  { token := "token", group := "group", username := some "user",
    permissions := ["present", "message"], expires := some 60,
    notBefore := some 30 }

def token5 : Stateful :=
  { token := "token", group := "group", includeSubgroups := true,
    username := some "user",
    permissions := ["present", "message"], expires := some 60 }

/-- One expectation row of the success table of `TestStatefulCheck`. -/
structure CheckCase where
  tok : Stateful
  grp : String
  username : Option String
  expUsername : String
  expPermissions : List String
deriving Repr

/-- The success table of `TestStatefulCheck` (stateful_test.go
lines 84–132). -/
def successCases : List CheckCase :=
  [ ⟨token1, "group", some "user", "user", ["present", "message"]⟩,
    ⟨token1, "group", some "user2", "user", ["present", "message"]⟩,
    ⟨token1, "group", none, "user", ["present", "message"]⟩,
    ⟨token2, "group", some "user", "", ["present", "message"]⟩,
    ⟨token5, "group", some "user", "user", ["present", "message"]⟩,
    ⟨token5, "group/subgroup", some "user", "user", ["present", "message"]⟩ ]

/-- The failure table of `TestStatefulCheck` (stateful_test.go
lines 144–169). -/
def failureCases : List (Stateful × String × Option String) :=
  [ (token1, "group2", some "user"),
    (token3, "group", some "user"),
    (token4, "group", some "user"),
    (token5, "groups", some "user") ]

/-- The modelled `check` satisfies every expectation of
`TestStatefulCheck`: each success row yields exactly the expected username
and permissions, each failure row yields an error. -/
theorem check_agrees_with_TestStatefulCheck :
    (∀ c ∈ successCases,
      c.tok.check testNow "" c.grp c.username =
        .ok c.expUsername c.expPermissions) ∧
    (∀ c ∈ failureCases,
      (c.1.check testNow "" c.2.1 c.2.2).isErr = true) := by
  decide

/-! ## Token store (package `token`, type `state`) -/

/-- Serialization of an optional timestamp, for the canonical form below. -/
def serializeTime : Option Int → String
  | none => "-"
  | some n => toString n

/-- Modelled from the spec: the ETag of a stored record (token/stateful.go
is absent from the sources).  Spec §4.4 and §9: the ETag is a deterministic
strong hash of the record's canonical serialization; the hash is modelled
as the canonical serialization itself (only ETag equality is ever
observed), wrapped in double quotes as HTTP entity tags are. -/
def etagBody (t : Stateful) : String :=
  String.intercalate "|"
    [t.token, t.group, toString t.includeSubgroups, t.username.getD "-",
     String.intercalate "," t.permissions, serializeTime t.expires,
     serializeTime t.notBefore, t.issuedBy.getD "-",
     serializeTime t.issuedAt]

/-- Strong-hash ETag of a record, as the quoted canonical form. -/
def etagOf (t : Stateful) : String :=
  "\"" ++ etagBody t ++ "\""

/-- Insertion step of the deterministic sort by token value used when the
store file is rewritten (spec §4.4, §6: "rewrites use a deterministic sort
by `token`"). -/
def insertByTok (t : Stateful) : List Stateful → List Stateful
  | [] => [t]
  | u :: us =>
    match compare u.token t.token with
    | .lt => u :: insertByTok t us
    | _ => t :: u :: us

/-- Deterministic sort of the stored records by token value. -/
def sortByToken (l : List Stateful) : List Stateful :=
  l.foldr insertByTok []

/-- Store the record `t` under key `key` in an association list,
overwriting an existing binding (the embedding of
`s.tokens[token.Token] = token`). -/
def setTok (key : String) (t : Stateful) :
    List (String × Stateful) → List (String × Stateful)
  | [] => [(key, t)]
  | (k, u) :: rest =>
    if k = key then (k, t) :: rest else (k, u) :: setTok key t rest

/-- Modelled from the spec: the state of the token store (token/stateful.go
is absent from the sources).  The in-memory map is an association list from
token value to record; the backing JSON-lines file is `none` when absent
and `some records` (in file order) when present.  The filename and the
mtime memo are not modelled: the model is single-process, so every reload
is the identity. -/
structure StoreState where
  tokens : List (String × Stateful) := []
  file : Option (List Stateful) := none
deriving Repr, DecidableEq

/-- Contents the backing file must have for a given in-memory map: the
records sorted by token value, no file at all when the map is empty
(spec §4.4: "If the resulting in-memory map is empty, the file is removed
rather than rewritten"). -/
def fileFor (tokens : List (String × Stateful)) : Option (List Stateful) :=
  if tokens.isEmpty then none else some (sortByToken (tokens.map (·.2)))

/-- Modelled from the spec: `state.rewrite` (token/stateful.go is absent
from the sources).  Writes the sorted in-memory records to the backing
file; removes the file when the map is empty. -/
def StoreState.rewrite (s : StoreState) : StoreState :=
  { s with file := fileFor s.tokens }

/-- Errors of the token store (`ErrTagMismatch`, `ErrNotFound`). -/
inductive TokError where
  | tagMismatch
  | notFound
deriving Repr, DecidableEq

/-- Result of `state.Update`: the new record and the new store state, or a
store error. -/
inductive UpdateResult where
  | ok (newTok : Stateful) (s : StoreState)
  | err (e : TokError)
deriving Repr, DecidableEq

/-- Modelled from the spec: `state.Update(token, ifMatchETag)`
(token/stateful.go is absent from the sources).  Spec §4.4: the ETag is a
strong hash of the current record; the empty ETag means "create, must not
exist".  When no record with the token value exists: the empty ETag
creates it, a non-empty ETag yields `ErrNotFound`.  When a record exists:
the empty ETag and any ETag other than the current record's hash yield
`ErrTagMismatch` (pinned by `TestTokenStorage`, which expects
`ErrTagMismatch` both for `""` and for `"\"bad\""` on an existing record);
a matching ETag stores the new record and rewrites the file. -/
def StoreState.update (s : StoreState) (t : Stateful) (ifMatch : String) :
    UpdateResult :=
  match s.tokens.lookup t.token with
  | none =>
    if ifMatch = "" then
      .ok t (StoreState.rewrite { s with tokens := setTok t.token t s.tokens })
    else
      .err .notFound
  | some cur =>
    if ifMatch = "" then
      .err .tagMismatch
    else if ifMatch = etagOf cur then
      .ok t (StoreState.rewrite { s with tokens := setTok t.token t s.tokens })
    else
      .err .tagMismatch

/-- Modelled from the spec: `state.Get` (token/stateful.go is absent from
the sources).  Spec §4.4: `Get` returns a copy of the record together with
its ETag; a missing token yields `ErrNotFound`.  Copying is implicit
(values are immutable in the model). -/
def StoreState.get (s : StoreState) (tok : String) :
    Except TokError (Stateful × String) :=
  match s.tokens.lookup tok with
  | some t => .ok (t, etagOf t)
  | none => .error .notFound

/-- Grace period of the expiration sweep: 7 days, in seconds. -/
def expireGrace : Int := 7 * 86400

/-- Modelled from the spec: whether the sweep removes a record
(token/stateful.go is absent from the sources).  Spec §4.4: `Expire()`
removes tokens whose `expires` is more than 7 days in the past; a record
with no expiry is never swept. -/
def sweepable (t : Stateful) (now : Int) : Bool :=
  match t.expires with
  | some e => decide (e < now - expireGrace)
  | none => false

/-- Modelled from the spec: `state.Expire()` (token/stateful.go is absent
from the sources).  Removes the sweepable records from the in-memory map
and rewrites the backing file. -/
def StoreState.expire (s : StoreState) (now : Int) : StoreState :=
  StoreState.rewrite
    { s with tokens := s.tokens.filter (fun p => !(sweepable p.2 now)) }

/-- Every key of the in-memory map equals its record's `token` field
(spec §8, invariant P1 / §3 invariant I3). -/
def keysConsistent (s : StoreState) : Prop :=
  ∀ p ∈ s.tokens, p.1 = p.2.token

/-- The in-memory map agrees with the backing file: reading the file (an
absent file reads as no records) yields exactly the stored records, sorted
by token value. -/
def storeConsistent (s : StoreState) : Prop :=
  s.file.getD [] = sortByToken (s.tokens.map (·.2))

/-! ## WHIP client (rtpconn/whip.go) -/

/-- Observable state of a peer connection created by the WHIP client:
whether it has been closed, and whether an ICE-connection-state-change
callback is attached. -/
structure PeerConn where
  closed : Bool
  iceCallback : Bool
deriving Repr, DecidableEq

/-- The state a new peer connection is in right after `newUpConn` and the
`OnICEConnectionStateChange` registration in `WhipClient.NewConnection`:
open, callback attached. -/
def freshPC : PeerConn := ⟨false, true⟩

/-- A peer connection after `OnICEConnectionStateChange(nil)` and
`pc.Close()`: closed, callback detached. -/
def closedPC : PeerConn := ⟨true, false⟩

/-- State of a `WhipClient` (rtpconn/whip.go): the owning group reference
(`none` once cleared by `Close`), the current up connection (an index into
`pcs`), and every peer connection the client has created, in creation
order. -/
structure WhipClient where
  group : Option String
  connection : Option Nat
  pcs : List PeerConn
deriving Repr, DecidableEq

/-- Registry-visible effects of the WHIP client's close path. -/
inductive Event where
  | pushConnClosed (target : String) (upId : Nat)
  | delClient
deriving Repr, DecidableEq

/-- Embedding of `WhipClient.Close` (rtpconn/whip.go lines 1319–1339).
`others` is the snapshot `g.GetClients(c)` of the other clients of the
owning group.  When the group reference is already cleared the call
returns immediately; otherwise, if an up connection exists, its ICE
callback is detached and its peer connection closed, the connection
reference is cleared, and `PushConn(g, id, nil, nil, "")` is fanned out to
every other client; finally the client is removed from the group
(`group.DelClient`) and the group reference cleared.  The Go function
always returns `nil`, so no error component is modelled. -/
def WhipClient.close (others : List String) (c : WhipClient) :
    WhipClient × List Event :=
  match c.group with
  | none => (c, [])
  | some _ =>
    match c.connection with
    | none => ({ c with group := none }, [.delClient])
    | some i =>
      (⟨none, none, c.pcs.set i closedPC⟩,
       others.map (Event.pushConnClosed · i) ++ [.delClient])

/-- Embedding of `WhipClient.NewConnection` (rtpconn/whip.go lines
1341–1373).  The external collaborators are parameters: `upOk` is whether
`newUpConn` succeeds (on failure the client is untouched and the error is
returned), and `offerRes` is the outcome of the locked `gotOffer` call
(`.error` covers `SetRemoteDescription`/`CreateAnswer`/
`SetLocalDescription` failures and context cancellation during ICE
gathering).  On success of `newUpConn` a fresh peer connection is created
with the ICE callback attached; if a connection already exists the fresh
one is detached and closed and "duplicate connection" is returned; else it
is installed and `gotOffer` runs, whose failure detaches and closes the
fresh peer connection (the `connection` field is not reset). -/
def WhipClient.newConnection (c : WhipClient) (upOk : Bool)
    (offerRes : Except String String) :
    WhipClient × Except String String :=
  if !upOk then
    (c, .error "newUpConn failed")
  else
    let i := c.pcs.length
    let c1 : WhipClient := { c with pcs := c.pcs ++ [freshPC] }
    match c.connection with
    | some _ =>
      ({ c1 with pcs := c1.pcs.set i closedPC }, .error "duplicate connection")
    | none =>
      let c2 := { c1 with connection := some i }
      match offerRes with
      | .error e => ({ c2 with pcs := c2.pcs.set i closedPC }, .error e)
      | .ok answer => (c2, .ok answer)

/-! ## galenectl (galenectl/galenectl.go) -/

/-- Password record of `group.Password`, restricted to the fields
`makePassword` sets.  The Go zero values are the defaults. -/
structure Password where
  type : String
  hash : String := ""
  key : Option String := none
  salt : String := ""
  iterations : Nat := 0
deriving Repr, DecidableEq

/-- Hexadecimal digit for a value below 16, lowercase as Go's
`hex.EncodeToString` produces. -/
def hexDigit (n : Nat) : Char :=
  if n < 10 then Char.ofNat (48 + n) else Char.ofNat (87 + n)

/-- Hex encoding of one byte, two lowercase digits. -/
def hexEncodeByte (b : Nat) : String :=
  String.mk [hexDigit ((b / 16) % 16), hexDigit (b % 16)]

/-- Embedding of `hex.EncodeToString` on a byte sequence. -/
def hexEncode (bs : List Nat) : String :=
  String.join (bs.map hexEncodeByte)

/-- Outcome of `makePassword`: a password record, an error, or a
`log.Fatalf` program abort. -/
inductive MakePasswordResult where
  | ok (p : Password)
  | err (e : String)
  | fatal (msg : String)
deriving Repr, DecidableEq

/-- Embedding of `makePassword` (galenectl.go lines 218–264).  External
collaborators are parameters: `randRead n` is `rand.Read` on a buffer of
length `n` (bytes or an error), `pbkdf2Key pw salt iter len` is
`pbkdf2.Key([]byte(pw), salt, iter, len, sha256.New)`, and
`bcryptGen pw cost` is `bcrypt.GenerateFromPassword([]byte(pw), cost)`.
The salt is drawn first; then the algorithm dispatch builds a
pbkdf2-sha-256 record, a bcrypt record, a wildcard record (fatal unless
the password is empty), or fails with "unknown password type". -/
def makePassword (randRead : Nat → Except String (List Nat))
    (pbkdf2Key : String → List Nat → Nat → Nat → List Nat)
    (bcryptGen : String → Nat → Except String String)
    (pw algorithm : String) (iterations length saltlen cost : Nat) :
    MakePasswordResult :=
  match randRead saltlen with
  | .error e => .err e
  | .ok salt =>
    match algorithm with
    | "pbkdf2" =>
      .ok { type := "pbkdf2", hash := "sha-256",
            key := some (hexEncode (pbkdf2Key pw salt iterations length)),
            salt := hexEncode salt, iterations := iterations }
    | "bcrypt" =>
      match bcryptGen pw cost with
      | .error e => .err e
      | .ok k => .ok { type := "bcrypt", key := some k }
    | "wildcard" =>
      if pw ≠ "" then
        .fatal "Wildcard password must be the empty string"
      else
        .ok { type := "wildcard" }
    | _ => .err "unknown password type"

/-- Command-line flag defaults of `hashPasswordCmd` (galenectl.go lines
282–289): `-type bcrypt`, `-iterations 4096`, `-cost 8`, `-key 32`,
`-salt 8`. -/
structure HashPasswordFlags where
  password : String
  algorithm : String
  iterations : Nat
  cost : Nat
  length : Nat
  saltlen : Nat
deriving Repr, DecidableEq

/-- The defaults registered by `hashPasswordCmd`. -/
def hashPasswordCmdDefaults : HashPasswordFlags :=
  { password := "", algorithm := "bcrypt", iterations := 4096, cost := 8,
    length := 32, saltlen := 8 }

/-- The `galenectl` configuration record (struct `configuration`); all
fields are strings, so the Go zero value has every field empty. -/
structure Configuration where
  server : String := ""
  adminUsername : String := ""
  adminPassword : String := ""
  adminToken : String := ""
deriving Repr, DecidableEq

/-- The Go zero value of `configuration`. -/
def Configuration.zero : Configuration := {}

/-- Whether a JSON key of the configuration file is a known field of
struct `configuration`. -/
def knownKey (k : String) : Bool :=
  k == "server" || k == "admin-username" || k == "admin-password" ||
    k == "admin-token"

/-- Set one known configuration field; returns the configuration unchanged
together with `false` on an unknown key. -/
def applyField (c : Configuration) (kv : String × String) :
    Configuration × Bool :=
  if kv.1 == "server" then ({ c with server := kv.2 }, true)
  else if kv.1 == "admin-username" then ({ c with adminUsername := kv.2 }, true)
  else if kv.1 == "admin-password" then ({ c with adminPassword := kv.2 }, true)
  else if kv.1 == "admin-token" then ({ c with adminToken := kv.2 }, true)
  else (c, false)

/-- Embedding of `decoder.Decode(&config)` with `DisallowUnknownFields()`
on a configuration file body, given as a list of key/value pairs in file
order.  Following `encoding/json` semantics, every known field is
populated, and the first unknown field is recorded as the decoder's saved
error while decoding continues. -/
def decodeStep (acc : Configuration × Option String) (kv : String × String) :
    Configuration × Option String :=
  match applyField acc.1 kv with
  | (c, true) => (c, acc.2)
  | (_, false) =>
    (acc.1, acc.2 <|> some ("json: unknown field \"" ++ kv.1 ++ "\""))

def decodeConfig (body : List (String × String)) :
    Configuration × Option String :=
  body.foldl decodeStep (Configuration.zero, none)

/-- Outcome of `os.Open` on the configuration file: the file does not
exist, another open error, or the file's decoded JSON body. -/
inductive OpenResult where
  | notExist
  | openErr (e : String)
  | opened (body : List (String × String))
deriving Repr, DecidableEq

/-- Embedding of `readConfig` (galenectl.go lines 199–216).  A missing
file yields the zero configuration and no error; any other open failure
yields the zero configuration and the error; otherwise the body is decoded
with unknown fields disallowed and the decoder's result is returned
verbatim. -/
def readConfig (r : OpenResult) : Configuration × Option String :=
  match r with
  | .notExist => (Configuration.zero, none)
  | .openErr e => (Configuration.zero, some e)
  | .opened body => decodeConfig body

/-! ## Supporting lemmas -/

theorem groupMatches_iff (t : Stateful) (grp : String) :
    groupMatches t grp = true ↔
      grp = t.group ∨
        (t.includeSubgroups = true ∧ strHasPrefix (t.group ++ "/") grp = true) := by
  simp [groupMatches]

theorem timeValid_iff (t : Stateful) (now : Int) :
    timeValid t now = true ↔
      ((∀ nb ∈ t.notBefore, nb ≤ now) ∧ (∀ e ∈ t.expires, now < e)) := by
  unfold timeValid
  cases t.notBefore <;> cases t.expires <;> simp

theorem check_isErr_eq (t : Stateful) (now : Int) (host grp : String)
    (u : Option String) :
    (t.check now host grp u).isErr =
      !(groupMatches t grp && timeValid t now) := by
  unfold Stateful.check
  cases hg : groupMatches t grp <;> cases ht : timeValid t now <;>
    simp [hg, ht, CheckResult.isErr]

/-! ## C1: stateful token check -/

/-- C1 (amended): `t.Check(host, group, username)` succeeds if and only if
the current time is at or after `notBefore` (when set) and strictly before
`expires` (when set) and the requested group equals `t.group` or, when
`includeSubgroups` is set, is a strict subgroup of it (every supplied
username is compatible); on success the returned permissions are the
token's permission list and the returned username is the token's bound
username when present, else the empty string. -/
theorem stateful_check_characterization (t : Stateful) (now : Int)
    (host grp : String) (u : Option String) :
    ((t.check now host grp u).isErr = false ↔
      ((∀ nb ∈ t.notBefore, nb ≤ now) ∧ (∀ e ∈ t.expires, now < e) ∧
        (grp = t.group ∨
          (t.includeSubgroups = true ∧
            strHasPrefix (t.group ++ "/") grp = true)))) ∧
    (∀ un ps, t.check now host grp u = .ok un ps →
      un = t.username.getD "" ∧ ps = t.permissions) := by
  constructor
  · rw [check_isErr_eq]
    rw [Bool.not_eq_false', Bool.and_eq_true, groupMatches_iff, timeValid_iff]
    tauto
  · intro un ps h
    unfold Stateful.check at h
    by_cases hg : groupMatches t grp <;> by_cases ht : timeValid t now <;>
      simp [hg, ht] at h
    exact ⟨h.1.symm, h.2.symm⟩

/-- C1 witness: the characterization applied to `token1` at a concrete
call of `TestStatefulCheck`. -/
theorem stateful_check_characterization_witness :
    ("user" : String) = token1.username.getD "" ∧
      ["present", "message"] = token1.permissions :=
  (stateful_check_characterization token1 testNow "" "group"
    (some "user2")).2 "user" ["present", "message"] (by decide)

/-- C1 counterexample: for `token2` (which binds no username) with
caller-supplied username `"user"`, the check pinned by `TestStatefulCheck`
returns the empty username, not the caller-supplied one required by the
claim. -/
theorem stateful_check_username_counterexample :
    token2.check testNow "" "group" (some "user") =
      .ok "" ["present", "message"] ∧
    claimReturnedUsername token2 (some "user") = "user" ∧
    token2.check testNow "" "group" (some "user") ≠
      .ok (claimReturnedUsername token2 (some "user"))
        ["present", "message"] := by
  refine ⟨by decide, by decide, by decide⟩

theorem etagOf_ne_empty (t : Stateful) : etagOf t ≠ "" := by
  intro h
  have h2 := congrArg String.data h
  rw [etagOf, String.congr_append ("\"" ++ etagBody t) "\"",
    String.congr_append "\"" (etagBody t)] at h2
  simp at h2

theorem lookup_setTok_self (key : String) (t : Stateful) :
    ∀ l : List (String × Stateful), (setTok key t l).lookup key = some t
  | [] => by simp [setTok, List.lookup]
  | (k, u) :: rest => by
    by_cases h : k = key
    · subst h
      simp [setTok, List.lookup]
    · have hbeq : (key == k) = false := by
        simp only [beq_eq_false_iff_ne]
        exact Ne.symm h
      simp only [setTok, if_neg h, List.lookup, hbeq]
      exact lookup_setTok_self key t rest

theorem lookup_setTok_other (key k : String) (t : Stateful) (hk : k ≠ key) :
    ∀ l : List (String × Stateful),
      (setTok key t l).lookup k = l.lookup k
  | [] => by
    have hbeq : (k == key) = false := by
      simp only [beq_eq_false_iff_ne]
      exact hk
    simp [setTok, List.lookup, hbeq]
  | (k', u) :: rest => by
    by_cases h : k' = key
    · subst h
      have hbeq : (k == k') = false := by
        simp only [beq_eq_false_iff_ne]
        exact hk
      simp [setTok, List.lookup, hbeq]
    · simp only [setTok, if_neg h, List.lookup]
      cases hbeq : k == k' with
      | true => rfl
      | false => exact lookup_setTok_other key k t hk rest

theorem storeConsistent_rewrite (s : StoreState) :
    storeConsistent s.rewrite := by
  unfold storeConsistent StoreState.rewrite fileFor
  by_cases h : s.tokens.isEmpty
  · rw [List.isEmpty_iff] at h
    simp [h, sortByToken]
  · simp [h]

/-! ## C2: optimistic update of an existing token record -/

/-- C2: when a record with the token's value already exists in the store,
`Update(token, ifMatchETag)` fails with `ErrTagMismatch` whenever
`ifMatchETag` is empty or differs from the strong hash of the stored
record; when it equals that hash the call succeeds, returns the new
record, stores it under its token value without touching other keys, and
leaves the backing file equal to the in-memory map. -/
theorem update_existing_etag (s : StoreState) (t cur : Stateful)
    (etg : String) (hcur : s.tokens.lookup t.token = some cur) :
    ((etg = "" ∨ etg ≠ etagOf cur) → s.update t etg = .err .tagMismatch) ∧
    (etg = etagOf cur →
      ∃ s', s.update t etg = .ok t s' ∧
        s'.tokens.lookup t.token = some t ∧
        (∀ k, k ≠ t.token → s'.tokens.lookup k = s.tokens.lookup k) ∧
        storeConsistent s') := by
  constructor
  · intro h
    unfold StoreState.update
    rw [hcur]
    rcases h with h | h
    · simp [h]
    · rcases eq_or_ne etg "" with he | he
      · simp [he]
      · simp [he, h]
  · intro h
    have hne : etg ≠ "" := h ▸ etagOf_ne_empty cur
    refine ⟨StoreState.rewrite { s with tokens := setTok t.token t s.tokens },
      ?_, ?_, ?_, ?_⟩
    · subst h
      unfold StoreState.update
      rw [hcur]
      simp [etagOf_ne_empty cur]
    · exact lookup_setTok_self t.token t s.tokens
    · intro k hk
      exact lookup_setTok_other t.token k t hk s.tokens
    · exact storeConsistent_rewrite _

/-- C2 witness: a store holding one record; the empty ETag and a wrong
ETag are rejected with `ErrTagMismatch` and the record's own ETag lets an
update through. -/
theorem update_existing_etag_witness :
    (StoreState.update ⟨[("token", token1)], some [token1]⟩ token3 ""
        = .err .tagMismatch) ∧
    (∃ s', StoreState.update ⟨[("token", token1)], some [token1]⟩ token3
        (etagOf token1) = .ok token3 s' ∧
      s'.tokens.lookup "token" = some token3) := by
  have h := update_existing_etag ⟨[("token", token1)], some [token1]⟩
    token3 token1 "" (by decide)
  have h2 := update_existing_etag ⟨[("token", token1)], some [token1]⟩
    token3 token1 (etagOf token1) (by decide)
  refine ⟨h.1 (Or.inl rfl), ?_⟩
  obtain ⟨s', hs1, hs2, -, -⟩ := h2.2 rfl
  exact ⟨s', hs1, hs2⟩

/-! ## C3: expiration sweep -/

/-- One token of `TestExpire` (stateful_test.go lines 352–388): group
"test", user "user", permissions present/message, and the given expiry. -/
def expTok (name : String) (e : Int) : Stateful :=
  { token := name, group := "test", username := some "user",
    permissions := ["present", "message"], expires := some e }

/-- The five tokens of `TestExpire`, with `now = 0`: expiries now, +1h,
now, −6 days, −8 days (in seconds). -/
def expireTokens : List Stateful :=
  [expTok "tok1" 0, expTok "tok2" 3600, expTok "tok3" 0,
   expTok "tok4" (-518400), expTok "tok5" (-691200)]

/-- Add a token to a store as the tests do: `Update` with the empty ETag
(the result is the new store; an error leaves the store unchanged, which
does not occur in the scenarios). -/
def addToken (s : StoreState) (t : Stateful) : StoreState :=
  match s.update t "" with
  | .ok _ s' => s'
  | .err _ => s

/-- The store built by `TestExpire` before the sweep. -/
def expireScenarioStore : StoreState :=
  expireTokens.foldl addToken {}

/-- C3: `Expire()` removes exactly the records whose expiry is more than
7 days in the past; on the `TestExpire` store of five tokens with expiries
{now, +1h, now, −6d, −8d} it retains the first four and removes only the
fifth, in the in-memory map and in the backing file. -/
theorem expire_sweeps_exactly_old (s : StoreState) (now : Int) :
    (∀ k t, (k, t) ∈ (s.expire now).tokens ↔
        (k, t) ∈ s.tokens ∧ sweepable t now = false) ∧
    (expireScenarioStore.expire 0).tokens =
      [("tok1", expTok "tok1" 0), ("tok2", expTok "tok2" 3600),
       ("tok3", expTok "tok3" 0), ("tok4", expTok "tok4" (-518400))] ∧
    (expireScenarioStore.expire 0).file =
      some [expTok "tok1" 0, expTok "tok2" 3600, expTok "tok3" 0,
            expTok "tok4" (-518400)] := by
  refine ⟨?_, by decide, by decide⟩
  intro k t
  show (k, t) ∈ s.tokens.filter (fun p => !(sweepable p.2 now)) ↔ _
  rw [List.mem_filter]
  simp

/-! ## C4: memory/file agreement after updates and sweeps -/

theorem mem_setTok (key : String) (t : Stateful) :
    ∀ l : List (String × Stateful), ∀ p ∈ setTok key t l,
      p = (key, t) ∨ p ∈ l
  | [], p, hp => by
    simp [setTok] at hp
    exact Or.inl hp
  | (k, u) :: rest, p, hp => by
    by_cases h : k = key
    · subst h
      simp only [setTok, if_pos rfl] at hp
      rcases List.mem_cons.mp hp with h1 | h1
      · subst h1; exact Or.inl rfl
      · exact Or.inr (List.mem_cons_of_mem _ h1)
    · simp only [setTok, if_neg h] at hp
      rcases List.mem_cons.mp hp with h1 | h1
      · subst h1; exact Or.inr (List.mem_cons_self _ _)
      · rcases mem_setTok key t rest p h1 with h2 | h2
        · exact Or.inl h2
        · exact Or.inr (List.mem_cons_of_mem _ h2)

theorem keysConsistent_update (s : StoreState) (t : Stateful)
    (hs : keysConsistent s) :
    keysConsistent
      (StoreState.rewrite { s with tokens := setTok t.token t s.tokens }) := by
  intro p hp
  rcases mem_setTok t.token t s.tokens p hp with h | h
  · subst h; rfl
  · exact hs p h

/-- C4: after every successful `Update` and after every `Expire`, the
in-memory map agrees with the backing file (reading the file yields
exactly the stored records), and every map key still equals its record's
token value, so re-reading reproduces the map; this holds along any
sequence of such operations. -/
theorem store_file_sync (s : StoreState) :
    (∀ (t : Stateful) (etg : String) (t' : Stateful) (s' : StoreState),
        s.update t etg = .ok t' s' →
        storeConsistent s' ∧ (keysConsistent s → keysConsistent s')) ∧
    (∀ now : Int,
        storeConsistent (s.expire now) ∧
          (keysConsistent s → keysConsistent (s.expire now))) := by
  constructor
  · intro t etg t' s' h
    unfold StoreState.update at h
    split at h
    · split at h
      · injection h with h1 h2
        subst h2
        exact ⟨storeConsistent_rewrite _, fun hk => keysConsistent_update s t hk⟩
      · exact absurd h (by simp)
    · split at h
      · exact absurd h (by simp)
      · split at h
        · injection h with h1 h2
          subst h2
          exact ⟨storeConsistent_rewrite _,
            fun hk => keysConsistent_update s t hk⟩
        · exact absurd h (by simp)
  · intro now
    refine ⟨storeConsistent_rewrite _, fun hk p hp => ?_⟩
    exact hk p (List.mem_of_mem_filter hp)

/-- C4 witness: adding `token1` to the empty store succeeds and the
resulting store has its file in step with its map; so does a sweep of that
store. -/
theorem store_file_sync_witness :
    storeConsistent (addToken {} token1) ∧
      storeConsistent ((addToken {} token1).expire 0) := by
  have h := (store_file_sync {}).1 token1 "" token1 (addToken {} token1)
    (by decide)
  have h2 := (store_file_sync (addToken {} token1)).2 0
  exact ⟨h.1, h2.1⟩

/-! ## C5: an empty store leaves no file behind -/

/-- C5: rewriting a store whose in-memory map is empty removes the backing
file: afterwards no file exists (rather than an empty file). -/
theorem empty_store_rewrite_removes_file (s : StoreState)
    (h : s.tokens = []) : s.rewrite.file = none := by
  unfold StoreState.rewrite fileFor
  simp [h]

/-- C5 witness: rewriting an emptied store that previously had a backing
file removes the file. -/
theorem empty_store_rewrite_removes_file_witness :
    (StoreState.rewrite ⟨[], some [token1]⟩).file = none :=
  empty_store_rewrite_removes_file ⟨[], some [token1]⟩ rfl

/-! ## C6–C8: WHIP client -/

instance {ε α : Type} [DecidableEq ε] [DecidableEq α] :
    DecidableEq (Except ε α)
  | .error x, .error y =>
    if h : x = y then .isTrue (h ▸ rfl)
    else .isFalse fun hh => h (Except.error.inj hh)
  | .error _, .ok _ => .isFalse fun hh => Except.noConfusion hh
  | .ok _, .error _ => .isFalse fun hh => Except.noConfusion hh
  | .ok x, .ok y =>
    if h : x = y then .isTrue (h ▸ rfl)
    else .isFalse fun hh => h (Except.ok.inj hh)

theorem set_append_length {α : Type} (l : List α) (a b : α) :
    (l ++ [a]).set l.length b = l ++ [b] := by
  induction l with
  | nil => rfl
  | cons x xs ih => simp [List.set, ih]

/-- C6: a WHIP publisher has at most one up connection: on a client whose
connection is already set, `NewConnection` (after a successful
`newUpConn`) closes and detaches the peer connection it just created,
leaves the existing connection in place, and is rejected with the
duplicate-connection error. -/
theorem whip_duplicate_connection (c : WhipClient) (j : Nat)
    (off : Except String String) (hc : c.connection = some j) :
    (c.newConnection true off).2 = .error "duplicate connection" ∧
    (c.newConnection true off).1.connection = some j ∧
    (c.newConnection true off).1.pcs = c.pcs ++ [closedPC] := by
  unfold WhipClient.newConnection
  rw [hc]
  simp [set_append_length]

/-- C6 witness: a client with an up connection rejects a second offer. -/
theorem whip_duplicate_connection_witness :
    ((WhipClient.newConnection ⟨some "g", some 0, [freshPC]⟩ true
        (.ok "sdp")).2 = .error "duplicate connection") ∧
    ((WhipClient.newConnection ⟨some "g", some 0, [freshPC]⟩ true
        (.ok "sdp")).1.pcs = [freshPC] ++ [closedPC]) := by
  have h := whip_duplicate_connection ⟨some "g", some 0, [freshPC]⟩ 0
    (.ok "sdp") rfl
  exact ⟨h.1, h.2.2⟩

/-- C7 counterexample: when `gotOffer` fails (context cancellation during
ICE gathering), `NewConnection` returns the error with the created peer
connection closed, but the client is not left in its pre-call state: the
closed connection stays installed and a later `NewConnection` is rejected
as a duplicate. -/
theorem whip_error_state_counterexample :
    ((WhipClient.newConnection ⟨some "g", none, []⟩ true
        (.error "context canceled")).2 = .error "context canceled") ∧
    ((WhipClient.newConnection ⟨some "g", none, []⟩ true
        (.error "context canceled")).1 ≠ ⟨some "g", none, []⟩) ∧
    ((WhipClient.newConnection ⟨some "g", none, []⟩ true
        (.error "context canceled")).1.connection = some 0) ∧
    (((WhipClient.newConnection ⟨some "g", none, []⟩ true
        (.error "context canceled")).1.newConnection true (.ok "sdp")).2 =
      .error "duplicate connection") := by
  decide

/-- C7 (amended): whenever `NewConnection` returns an error — including
cancellation of its context during ICE gathering — every peer connection
it created has been closed and its ICE callback detached, and the
pre-existing peer connections are untouched; however, when the failure
occurs in `gotOffer` after the new connection was installed, the client
retains the closed connection, which blocks a later `NewConnection` with
the duplicate-connection error. -/
theorem whip_error_closes_created (c : WhipClient) (upOk : Bool)
    (off : Except String String) (e : String)
    (h : (c.newConnection upOk off).2 = .error e) :
    (∀ p ∈ (c.newConnection upOk off).1.pcs.drop c.pcs.length,
      p = closedPC) ∧
    (c.newConnection upOk off).1.pcs.take c.pcs.length = c.pcs := by
  unfold WhipClient.newConnection at h ⊢
  cases upOk with
  | false => simp [List.drop_length, List.take_length]
  | true =>
    cases hc : c.connection with
    | some j =>
      simp [set_append_length, List.drop_left, List.take_left]
    | none =>
      rw [hc] at h
      cases off with
      | error e' =>
        simp [set_append_length, List.drop_left, List.take_left]
      | ok ans =>
        exfalso
        simp at h

/-- C7 witness: the amended statement at the counterexample's input. -/
theorem whip_error_closes_created_witness :
    (∀ p ∈ ((WhipClient.newConnection ⟨some "g", none, [⟨true, false⟩]⟩ true
        (.error "context canceled")).1.pcs.drop 1), p = closedPC) ∧
    ((WhipClient.newConnection ⟨some "g", none, [⟨true, false⟩]⟩ true
        (.error "context canceled")).1.pcs.take 1 = [⟨true, false⟩]) :=
  whip_error_closes_created ⟨some "g", none, [⟨true, false⟩]⟩ true
    (.error "context canceled") "context canceled" (by decide)

/-- C8: the close path is idempotent from any state: a second `Close`
returns without events and without changing the client; and on a client
with a group and an up connection, the first `Close` detaches the ICE
callback and closes the peer connection, clears the connection and group
references, and fans out `PushConn(g, id, nil, nil, "")` to every other
client before `DelClient`. -/
theorem whip_close_idempotent (others others2 : List String)
    (c : WhipClient) :
    (WhipClient.close others2 (WhipClient.close others c).1 =
      ((WhipClient.close others c).1, [])) ∧
    (∀ g i, c.group = some g → c.connection = some i →
      (WhipClient.close others c).1 = ⟨none, none, c.pcs.set i closedPC⟩ ∧
      (WhipClient.close others c).2 =
        others.map (Event.pushConnClosed · i) ++ [Event.delClient]) := by
  constructor
  · rcases hg : c.group with _ | g
    · simp [WhipClient.close, hg]
    · rcases hc : c.connection with _ | i <;>
        simp [WhipClient.close, hg, hc]
  · intro g i h1 h2
    rw [WhipClient.close, h1, h2]
    exact ⟨rfl, rfl⟩

/-- C8 witness: closing a connected client twice; the second close is a
no-op and the first produced the full effect list. -/
theorem whip_close_idempotent_witness :
    (WhipClient.close ["b"] (WhipClient.close ["a", "b"]
        ⟨some "g", some 0, [freshPC]⟩).1 =
      ((WhipClient.close ["a", "b"] ⟨some "g", some 0, [freshPC]⟩).1, [])) ∧
    ((WhipClient.close ["a", "b"] ⟨some "g", some 0, [freshPC]⟩).2 =
      [Event.pushConnClosed "a" 0, Event.pushConnClosed "b" 0,
       Event.delClient]) := by
  have h := whip_close_idempotent ["a", "b"] ["b"]
    ⟨some "g", some 0, [freshPC]⟩
  exact ⟨h.1, ((h.2 "g" 0 rfl rfl).2).trans (by decide)⟩

/-! ## C9: makePassword -/

/-- C9: `makePassword` with algorithm "bcrypt" produces a bcrypt record
from the bcrypt generator at the given cost; with "pbkdf2" it produces a
record with hash "sha-256" whose key is the hex-encoded PBKDF2 key at the
given iteration count and key length over a salt drawn with the given
salt length, and whose iterations field is the given count; any algorithm
other than pbkdf2, bcrypt and wildcard yields the unknown-password-type
error; and the `hash-password` command-line defaults are bcrypt with cost
8, iterations 4096, key length 32 and salt length 8. -/
theorem makePassword_algorithms
    (randRead : Nat → Except String (List Nat))
    (pk : String → List Nat → Nat → Nat → List Nat)
    (bg : String → Nat → Except String String)
    (salt : List Nat) (pw : String) (iterations length saltlen cost : Nat)
    (hrand : randRead saltlen = .ok salt) :
    (∀ k, bg pw cost = .ok k →
      makePassword randRead pk bg pw "bcrypt" iterations length saltlen
        cost = .ok { type := "bcrypt", key := some k }) ∧
    (makePassword randRead pk bg pw "pbkdf2" iterations length saltlen
        cost =
      .ok { type := "pbkdf2", hash := "sha-256",
            key := some (hexEncode (pk pw salt iterations length)),
            salt := hexEncode salt, iterations := iterations }) ∧
    (∀ alg, alg ≠ "pbkdf2" → alg ≠ "bcrypt" → alg ≠ "wildcard" →
      makePassword randRead pk bg pw alg iterations length saltlen cost =
        .err "unknown password type") ∧
    (hashPasswordCmdDefaults.algorithm = "bcrypt" ∧
      hashPasswordCmdDefaults.cost = 8 ∧
      hashPasswordCmdDefaults.iterations = 4096 ∧
      hashPasswordCmdDefaults.length = 32 ∧
      hashPasswordCmdDefaults.saltlen = 8) := by
  refine ⟨?_, ?_, ?_, rfl, rfl, rfl, rfl, rfl⟩
  · intro k hk
    unfold makePassword
    rw [hrand, hk]
    rfl
  · unfold makePassword
    rw [hrand]
    rfl
  · intro alg h1 h2 h3
    unfold makePassword
    rw [hrand]
    simp [h1, h2, h3]

/-- C9 witness: concrete salt, PBKDF2 and bcrypt collaborators; the
records produced for each algorithm and the rejection of an unknown
algorithm. -/
theorem makePassword_algorithms_witness :
    (makePassword (fun _ => .ok [0, 255]) (fun _ _ _ _ => [171])
        (fun _ _ => .ok "bkey") "pw" "bcrypt" 4096 32 8 8 =
      .ok { type := "bcrypt", key := some "bkey" }) ∧
    (makePassword (fun _ => .ok [0, 255]) (fun _ _ _ _ => [171])
        (fun _ _ => .ok "bkey") "pw" "pbkdf2" 4096 32 8 8 =
      .ok { type := "pbkdf2", hash := "sha-256", key := some "ab",
            salt := "00ff", iterations := 4096 }) ∧
    (makePassword (fun _ => .ok [0, 255]) (fun _ _ _ _ => [171])
        (fun _ _ => .ok "bkey") "pw" "plain" 4096 32 8 8 =
      .err "unknown password type") := by
  have h := makePassword_algorithms (fun _ => .ok [0, 255])
    (fun _ _ _ _ => [171]) (fun _ _ => .ok "bkey") [0, 255] "pw"
    4096 32 8 8 rfl
  refine ⟨h.1 "bkey" rfl, h.2.1.trans (by decide),
    h.2.2.1 "plain" (by decide) (by decide) (by decide)⟩

/-! ## C10: readConfig -/

theorem applyField_snd (c : Configuration) (kv : String × String) :
    (applyField c kv).2 = knownKey kv.1 := by
  unfold applyField knownKey
  by_cases h1 : (kv.1 == "server") = true <;>
    by_cases h2 : (kv.1 == "admin-username") = true <;>
    by_cases h3 : (kv.1 == "admin-password") = true <;>
    by_cases h4 : (kv.1 == "admin-token") = true <;>
    simp [h1, h2, h3, h4]

theorem applyField_fst_indep (c : Configuration) (kv : String × String) :
    (applyField c kv).1 = c ∨ (applyField c kv).2 = true := by
  unfold applyField
  by_cases h1 : (kv.1 == "server") = true <;>
    by_cases h2 : (kv.1 == "admin-username") = true <;>
    by_cases h3 : (kv.1 == "admin-password") = true <;>
    by_cases h4 : (kv.1 == "admin-token") = true <;>
    simp [h1, h2, h3, h4]

theorem orElse_some_isSome (e : Option String) (m : String) :
    (e <|> some m).isSome = true := by
  cases e <;> rfl

theorem decodeFold_err (body : List (String × String)) :
    ∀ (c0 : Configuration) (e0 : Option String),
      (body.foldl decodeStep (c0, e0)).2.isSome =
        (e0.isSome || body.any (fun kv => !(knownKey kv.1)))
  | c0, e0 => by
    induction body generalizing c0 e0 with
    | nil => simp
    | cons kv rest ih =>
      rw [List.foldl_cons, List.any_cons]
      rcases ha : applyField c0 kv with ⟨c', b⟩
      have hb : b = knownKey kv.1 := by
        have := applyField_snd c0 kv
        rw [ha] at this
        exact this
      cases hknown : knownKey kv.1 with
      | true =>
        have : decodeStep (c0, e0) kv = (c', e0) := by
          unfold decodeStep
          rw [ha, hb, hknown]
        rw [this, ih]
        simp [hknown]
      | false =>
        have : decodeStep (c0, e0) kv =
            (c0, e0 <|> some ("json: unknown field \"" ++ kv.1 ++ "\"")) := by
          unfold decodeStep
          rw [ha, hb, hknown]
        rw [this, ih]
        simp [hknown, orElse_some_isSome]

theorem decodeFold_fst_filter (body : List (String × String)) :
    ∀ (c0 : Configuration) (e0 : Option String),
      (body.foldl decodeStep (c0, e0)).1 =
        ((body.filter (fun kv => knownKey kv.1)).foldl decodeStep
          (c0, none)).1
  | c0, e0 => by
    induction body generalizing c0 e0 with
    | nil => simp
    | cons kv rest ih =>
      rw [List.foldl_cons, List.filter_cons]
      rcases ha : applyField c0 kv with ⟨c', b⟩
      have hb : b = knownKey kv.1 := by
        have := applyField_snd c0 kv
        rw [ha] at this
        exact this
      cases hknown : knownKey kv.1 with
      | true =>
        have hstep : ∀ e : Option String,
            decodeStep (c0, e) kv = (c', e) := by
          intro e
          unfold decodeStep
          rw [ha, hb, hknown]
        rw [hstep e0, ih]
        simp [hknown, hstep none]
      | false =>
        have hstep : decodeStep (c0, e0) kv =
            (c0, e0 <|> some ("json: unknown field \"" ++ kv.1 ++ "\"")) := by
          unfold decodeStep
          rw [ha, hb, hknown]
        rw [hstep, ih]
        simp [hknown]

/-- C10 (amended): `readConfig` returns the zero-value configuration and
no error when the configuration file does not exist; any other failure to
open the file is returned as an error with the zero-value configuration;
a JSON body containing unknown fields is returned as an error, but
together with the configuration decoded so far — every known field of the
body is still populated (the decoder saves the unknown-field error and
keeps decoding), so the configuration is the zero value only when the
body holds no known fields. -/
theorem readConfig_spec :
    (readConfig .notExist = (Configuration.zero, none)) ∧
    (∀ e, readConfig (.openErr e) = (Configuration.zero, some e)) ∧
    (∀ body, (readConfig (.opened body)).2.isSome =
        body.any (fun kv => !(knownKey kv.1))) ∧
    (∀ body, (readConfig (.opened body)).1 =
        (decodeConfig (body.filter (fun kv => knownKey kv.1))).1) := by
  refine ⟨rfl, fun e => rfl, fun body => ?_, fun body => ?_⟩
  · show (body.foldl decodeStep (Configuration.zero, none)).2.isSome = _
    rw [decodeFold_err]
    rfl
  · exact decodeFold_fst_filter body Configuration.zero none

/-- C10 counterexample: a body with the known field `server` and the
unknown field `bogus` is returned as an unknown-field error together with
a configuration that is not the zero value: the `server` field is
populated. -/
theorem readConfig_counterexample :
    readConfig (.opened [("server", "x"), ("bogus", "1")]) =
      ({ Configuration.zero with server := "x" },
        some "json: unknown field \"bogus\"") ∧
    ({ Configuration.zero with server := "x" } : Configuration) ≠
      Configuration.zero := by
  refine ⟨by decide, by decide⟩

end Galene
